import Mathlib

/-!
# Verification of the virapy lazy extension loader

Shallow embedding of `source/virapy/packaging/__init__.py`: the identity-safe
one-time extension load (`_load_extension`), the `_LazySubmodule` proxies
(V1FF / V8FF / RGBFF) with their activation state, and the module-level
platform setup (extension file name resolution and the Windows DLL search-path
registration).

Modelling conventions:
* `sys.modules` is an association list from module names to module object
  identities (`Nat` ids); dictionary update replaces any previous binding.
* Machine-level effects of the interpreter are made explicit: the process
  state (`PyState`) carries the `_extension_module` cache, a fresh-id counter
  for newly created module objects, a ghost counter `loadEvents` incremented
  each time `spec.loader.exec_module` runs (one native-load event), and the
  DLL search-path registrations.
* The host environment (`Env`) fixes the facts the code observes: the OS,
  the package directory, which files exist, whether spec creation and module
  execution succeed, and which attributes the loaded extension exposes.
* Python exceptions are values of `PyErr`; fallible code returns `Except`.
-/

namespace Virapy

/-- Python exception values as observed by this module.  `importError` is what
`_load_extension` raises; `keyError` models a failed `sys.modules[__name__]`
lookup; `attributeError` models a failed `getattr`; `activationConflict`
models the native `_activate()` rejection; `other` is any other exception
carried by its `str()` form. -/
inductive PyErr where
  | importError (msg : String)
  | keyError (key : String)
  | attributeError (attr : String)
  | activationConflict (requested currentlyActive : String)
  | other (msg : String)
deriving Repr, DecidableEq

/-- `str(e)` for the exceptions above, as used when `_load_extension`
interpolates the caught exception into its wrapper message.  (Python would
quote the `KeyError` key and phrase the `AttributeError`; the exact rendering
of those two is irrelevant to every claim, only `importError` and `other`
are ever interpolated on reachable paths.) -/
def strPyErr : PyErr → String
  | PyErr.importError msg => msg
  | PyErr.keyError key => key
  | PyErr.attributeError attr => "no attribute " ++ attr
  | PyErr.activationConflict r c => "cannot activate " ++ r ++ ", " ++ c ++ " is active"
  | PyErr.other msg => msg

/-! ## `sys.modules` as an association list -/

/-- Dictionary lookup `sys.modules.get(key)`. -/
def smLookup : List (String × Nat) → String → Option Nat
  | [], _ => none
  | (k, v) :: rest, key => if k = key then some v else smLookup rest key

/-- Dictionary deletion `del sys.modules[key]` (removes every binding of the
key; a well-formed dictionary has at most one). -/
def smDel : List (String × Nat) → String → List (String × Nat)
  | [], _ => []
  | (k, v) :: rest, key => if k = key then smDel rest key else (k, v) :: smDel rest key

/-- Dictionary update `sys.modules[key] = v`. -/
def smSet (sm : List (String × Nat)) (key : String) (v : Nat) : List (String × Nat) :=
  (key, v) :: smDel sm key

/-- Dictionary membership `key in sys.modules`. -/
def smMem (sm : List (String × Nat)) (key : String) : Bool :=
  (smLookup sm key).isSome

theorem smLookup_del_self (sm : List (String × Nat)) (key : String) :
    smLookup (smDel sm key) key = none := by
  induction sm with
  | nil => rfl
  | cons kv rest ih =>
    obtain ⟨k, v⟩ := kv
    by_cases h : k = key
    · simp [smDel, h, ih]
    · simp [smDel, smLookup, h, ih]

theorem smLookup_del_ne (sm : List (String × Nat)) (key other : String)
    (h : key ≠ other) : smLookup (smDel sm key) other = smLookup sm other := by
  induction sm with
  | nil => rfl
  | cons kv rest ih =>
    obtain ⟨k, v⟩ := kv
    by_cases hk : k = key
    · subst hk
      simp [smDel, smLookup, h, ih]
    · by_cases ho : k = other
      · subst ho
        simp [smDel, smLookup, hk]
      · simp [smDel, smLookup, hk, ho, ih]

theorem smLookup_set_self (sm : List (String × Nat)) (key : String) (v : Nat) :
    smLookup (smSet sm key v) key = some v := by
  simp [smSet, smLookup]

theorem smLookup_set_ne (sm : List (String × Nat)) (key other : String) (v : Nat)
    (h : key ≠ other) : smLookup (smSet sm key v) other = smLookup sm other := by
  simp [smSet, smLookup, fun hko => h hko, smLookup_del_ne sm key other h]

/-- A name is never equal to itself with `"_temp"` appended. -/
theorem name_ne_temp (nm : String) : nm ++ "_temp" ≠ nm := by
  intro h
  have hlen := congrArg String.length h
  rw [String.length_append] at hlen
  have h5 : "_temp".length = 5 := rfl
  omega

/-! ## Process state and host environment -/

/-- Mutable interpreter-level state touched by the module. -/
structure PyState where
  /-- `sys.modules` -/
  sysModules : List (String × Nat)
  /-- the module-global `_extension_module` cache -/
  extensionModule : Option Nat
  /-- fresh identity supply for module objects created by `module_from_spec` -/
  nextId : Nat
  /-- ghost counter: number of native-load events (`exec_module` runs) -/
  loadEvents : Nat
  /-- directories registered through `os.add_dll_directory` -/
  dllDirectories : List String
  /-- the `PATH` environment variable (`none` when unset) -/
  envPATH : Option String
deriving Repr

/-- Facts about the host the code observes but does not change. -/
structure Env where
  /-- `platform.system() == "Windows"` -/
  osWindows : Bool
  /-- `hasattr(os, "add_dll_directory")` -/
  hasAddDllDirectory : Bool
  /-- `_package_dir` -/
  packageDir : String
  /-- `os.pathsep` -/
  pathSep : String
  /-- `os.path.exists` -/
  fileExists : String → Bool
  /-- `spec_from_file_location` returns a spec with a loader -/
  specOk : Bool
  /-- outcome of `exec_module`: `some msg` when it raises (str form), else success -/
  execError : Option String
  /-- which attribute names the loaded extension module exposes -/
  hasAttr : String → Bool
  /-- attribute values on each variant submodule object (variant, attr) -/
  subAttrs : String → String → Option Nat

/-- POSIX-style `os.path.join` for a directory with no trailing separator;
the separator character is immaterial to every claim. -/
def pathJoin (dir file : String) : String :=
  dir ++ "/" ++ file

/-- The resolved extension file path, exactly as computed inside
`_load_extension`: `virapy.pyd` on Windows, `virapy.so` otherwise, joined
to the package directory. -/
def extensionPath (env : Env) : String :=
  if env.osWindows then pathJoin env.packageDir "virapy.pyd"
  else pathJoin env.packageDir "virapy.so"

/-- The bare extension file name as a function of the OS alone. -/
def extensionFileName (osWindows : Bool) : String :=
  if osWindows then "virapy.pyd" else "virapy.so"

theorem extensionPath_eq (env : Env) :
    extensionPath env = pathJoin env.packageDir (extensionFileName env.osWindows) := by
  by_cases h : env.osWindows <;> simp [extensionPath, extensionFileName, h]

/-- The `except Exception as e: raise ImportError(...)` wrapper at the bottom
of `_load_extension`. -/
def wrapErr (e : PyErr) : PyErr :=
  PyErr.importError ("Failed to import virapy extension: " ++ strPyErr e)

/-- `_load_extension()`.  Returns the loaded module id or the raised
exception, together with the updated process state.  `nm` is `__name__`,
the import name the wrapper package occupies. -/
def loadExtension (env : Env) (nm : String) (s : PyState) :
    Except PyErr Nat × PyState :=
  match s.extensionModule with
  | some m => (Except.ok m, s)
  | none =>
    let extensionFile := extensionPath env
    if env.fileExists extensionFile = false then
      (Except.error (wrapErr (PyErr.importError
        ("Extension file not found: " ++ extensionFile))), s)
    else
      match smLookup s.sysModules nm with
      | none =>
        -- this_module = sys.modules[__name__] raises KeyError, wrapped below
        (Except.error (wrapErr (PyErr.keyError nm)), s)
      | some thisModule =>
        let tempName := nm ++ "_temp"
        let sm1 := smSet s.sysModules tempName thisModule
        let sm2 := if smMem sm1 nm then smDel sm1 nm else sm1
        let s1 : PyState := { s with sysModules := sm2 }
        -- body of the inner try
        let inner : Except PyErr Nat × PyState :=
          if env.specOk = false then
            (Except.error (PyErr.importError
              ("Could not create spec for " ++ extensionFile)), s1)
          else
            match env.execError with
            | some msg =>
              (Except.error (PyErr.other msg),
               { s1 with loadEvents := s1.loadEvents + 1 })
            | none =>
              let mid := s1.nextId
              (Except.ok mid,
               { s1 with nextId := s1.nextId + 1,
                         loadEvents := s1.loadEvents + 1,
                         extensionModule := some mid })
        -- the finally block: restore sys.modules on every path
        let s2 := inner.2
        let sm3 := smSet s2.sysModules nm thisModule
        let sm4 := if smMem sm3 tempName then smDel sm3 tempName else sm3
        let s3 := { s2 with sysModules := sm4 }
        match inner.1 with
        | Except.ok m => (Except.ok m, s3)
        | Except.error e => (Except.error (wrapErr e), s3)

/-! ## Submodule proxies and activation -/

/-- Whole-system state: the interpreter state plus the native side's
activation record and a ghost counter of `_activate()` invocations. -/
structure SysState where
  /-- interpreter-level state -/
  py : PyState
  /-- Modelled from the spec: the Activation Arbiter's current Active
  variant, held inside the native extension (not under `src/`); `none`
  when no variant is Active (spec section 4.5). -/
  arb : Option String
  /-- ghost counter: number of times the native `_activate()` entry point
  has been invoked (any variant, any outcome) -/
  activateCalls : Nat
deriving Repr

/-- `_LazySubmodule` instance state. -/
structure LazySubmodule where
  /-- `self.name` -/
  name : String
  /-- `self._submodule`: `none` until resolved; once resolved, the pair of
  the extension module id it was looked up on and the variant name -/
  submodule : Option (Nat × String)
  /-- `self._activated` -/
  activated : Bool
deriving Repr, DecidableEq

/-- `_LazySubmodule.__init__`. -/
def LazySubmodule.init (name : String) : LazySubmodule :=
  { name := name, submodule := none, activated := false }

/-- Modelled from the spec: the Activation Arbiter exposed by the native
extension (not under `src/`).  Per spec section 4.5 it is
`activate(name) -> Ok | Reject(currentlyActive)`: it accepts when no variant
is Active (recording the requester) and rejects when another variant holds
Active; it never lets two variants be Active simultaneously.  Returns the
new Active record or the conflict exception. -/
def arbActivate (active : Option String) (n : String) : Except PyErr (Option String) :=
  match active with
  | none => Except.ok (some n)
  | some cur =>
    if cur = n then Except.ok (some cur)
    else Except.error (PyErr.activationConflict n cur)

/-- `_LazySubmodule._ensure_activated`.  Returns unit or the raised
exception, the updated proxy, and the updated system state. -/
def ensureActivated (env : Env) (nm : String) (p : LazySubmodule) (s : SysState) :
    Except PyErr Unit × LazySubmodule × SysState :=
  if p.activated then (Except.ok (), p, s)
  else
    match loadExtension env nm s.py with
    | (Except.error e, py1) => (Except.error e, p, { s with py := py1 })
    | (Except.ok ext, py1) =>
      if env.hasAttr p.name then
        -- self._submodule = getattr(extension, self.name)
        let p1 := { p with submodule := some (ext, p.name) }
        -- self._submodule._activate()
        let s1 : SysState := { s with py := py1, activateCalls := s.activateCalls + 1 }
        match arbActivate s.arb p.name with
        | Except.ok newActive =>
          (Except.ok (), { p1 with activated := true }, { s1 with arb := newActive })
        | Except.error e => (Except.error e, p1, s1)
      else
        -- getattr raises AttributeError before _activate is reached
        (Except.error (PyErr.attributeError p.name), p, { s with py := py1 })

/-- `getattr(self._submodule, attr)` on the stored submodule object. -/
def subGetattr (env : Env) (sub : Option (Nat × String)) (attr : String) :
    Except PyErr Nat :=
  match sub with
  | none => Except.error (PyErr.attributeError attr)
  | some sb =>
    match env.subAttrs sb.2 attr with
    | some v => Except.ok v
    | none => Except.error (PyErr.attributeError attr)

/-- `_LazySubmodule.__getattr__` (for attributes not shadowed by the
instance fields, i.e. real forwarded uses). -/
def proxyGetattr (env : Env) (nm : String) (attr : String)
    (p : LazySubmodule) (s : SysState) :
    Except PyErr Nat × LazySubmodule × SysState :=
  match ensureActivated env nm p s with
  | (Except.error e, p1, s1) => (Except.error e, p1, s1)
  | (Except.ok _, p1, s1) => (subGetattr env p1.submodule attr, p1, s1)

/-! ## Module-level initialization -/

/-- The Windows DLL search-path registration performed at the top of the
module: `os.add_dll_directory(_package_dir)` when available, otherwise
prepending `_package_dir` to `PATH`. -/
def registerDllDirectory (env : Env) (s : PyState) : PyState :=
  if env.osWindows then
    if env.hasAddDllDirectory then
      { s with dllDirectories := env.packageDir :: s.dllDirectories }
    else
      { s with envPATH := some (env.packageDir ++ env.pathSep ++ s.envPATH.getD "") }
  else s

/-- Module import time: register the DLL directory (Windows only) and
construct the three lazy proxies.  No load, no activation happens here. -/
def moduleInit (env : Env) (s : SysState) :
    (LazySubmodule × LazySubmodule × LazySubmodule) × SysState :=
  ((LazySubmodule.init "V1FF", LazySubmodule.init "V8FF", LazySubmodule.init "RGBFF"),
   { s with py := registerDllDirectory env s.py })

/-! ## Basic facts about `_load_extension` -/

/-- A cached handle is returned unchanged, with no state mutation at all. -/
theorem loadExtension_cached (env : Env) (nm : String) (s : PyState) (m : Nat)
    (h : s.extensionModule = some m) :
    loadExtension env nm s = (Except.ok m, s) := by
  simp [loadExtension, h]

/-- A successful first load returns the fresh module id, caches it, and
performs exactly one native-load event. -/
theorem loadExtension_ok_cache (env : Env) (nm : String) (s : PyState) (m : Nat)
    (s1 : PyState) (h0 : s.extensionModule = none)
    (h : loadExtension env nm s = (Except.ok m, s1)) :
    m = s.nextId ∧ s1.extensionModule = some m ∧ s1.loadEvents = s.loadEvents + 1 := by
  cases hfile : env.fileExists (extensionPath env) with
  | false => simp [loadExtension, h0, hfile] at h
  | true =>
    cases hnm : smLookup s.sysModules nm with
    | none => simp [loadExtension, h0, hfile, hnm] at h
    | some t =>
      cases hspec : env.specOk with
      | false => simp [loadExtension, h0, hfile, hnm, hspec] at h
      | true =>
        cases hexec : env.execError with
        | some msg => simp [loadExtension, h0, hfile, hnm, hspec, hexec] at h
        | none =>
          simp [loadExtension, h0, hfile, hnm, hspec, hexec] at h
          obtain ⟨hm, hs⟩ := h
          subst hm
          subst hs
          simp

/-- The fully explicit shape of a successful first load. -/
theorem loadExtension_success (env : Env) (nm : String) (s : PyState) (t : Nat)
    (h0 : s.extensionModule = none)
    (hfile : env.fileExists (extensionPath env) = true)
    (hnm : smLookup s.sysModules nm = some t)
    (hspec : env.specOk = true) (hexec : env.execError = none) :
    loadExtension env nm s =
      (Except.ok s.nextId,
       { s with
           sysModules :=
             smDel (smSet (smDel (smSet s.sysModules (nm ++ "_temp") t) nm) nm t)
               (nm ++ "_temp"),
           extensionModule := some s.nextId,
           nextId := s.nextId + 1,
           loadEvents := s.loadEvents + 1 }) := by
  have htemp : nm ++ "_temp" ≠ nm := name_ne_temp nm
  have hnmt : nm ≠ nm ++ "_temp" := Ne.symm htemp
  have h1 : smMem (smSet s.sysModules (nm ++ "_temp") t) nm = true := by
    rw [smMem, smLookup_set_ne s.sysModules (nm ++ "_temp") nm t htemp, hnm]
    rfl
  have h2 : smMem (smSet (smDel (smSet s.sysModules (nm ++ "_temp") t) nm) nm t)
      (nm ++ "_temp") = true := by
    rw [smMem,
        smLookup_set_ne (smDel (smSet s.sysModules (nm ++ "_temp") t) nm) nm
          (nm ++ "_temp") t hnmt,
        smLookup_del_ne (smSet s.sysModules (nm ++ "_temp") t) nm (nm ++ "_temp") hnmt,
        smLookup_set_self]
    rfl
  simp [loadExtension, h0, hfile, hnm, hspec, hexec, h1, h2]

/-! ## Claim C1 — identity restoration -/

/-- Claim C1: whether `_load_extension()` returns a handle or raises, the
`sys.modules` entry for the wrapper's own name is bound exactly as before
the call; the temporary alias is never leaked (if absent before, it is
absent after; and whenever the identity swap is actually entered, the alias
is removed unconditionally). -/
theorem c1_identity_restoration (env : Env) (nm : String) (s : PyState) :
    smLookup ((loadExtension env nm s).2).sysModules nm = smLookup s.sysModules nm ∧
    (smMem s.sysModules (nm ++ "_temp") = false →
      smMem ((loadExtension env nm s).2).sysModules (nm ++ "_temp") = false) ∧
    (s.extensionModule = none → env.fileExists (extensionPath env) = true →
      (smLookup s.sysModules nm).isSome = true →
      smMem ((loadExtension env nm s).2).sysModules (nm ++ "_temp") = false) := by
  have htemp : nm ++ "_temp" ≠ nm := name_ne_temp nm
  have hnmt : nm ≠ nm ++ "_temp" := Ne.symm htemp
  cases hcache : s.extensionModule with
  | some m => simp [loadExtension, hcache]
  | none =>
    cases hfile : env.fileExists (extensionPath env) with
    | false => simp [loadExtension, hcache, hfile]
    | true =>
      cases hnm : smLookup s.sysModules nm with
      | none => simp [loadExtension, hcache, hfile, hnm]
      | some t =>
        have h1 : smMem (smSet s.sysModules (nm ++ "_temp") t) nm = true := by
          rw [smMem, smLookup_set_ne s.sysModules (nm ++ "_temp") nm t htemp, hnm]
          rfl
        have h2 : smMem (smSet (smDel (smSet s.sysModules (nm ++ "_temp") t) nm) nm t)
            (nm ++ "_temp") = true := by
          rw [smMem,
              smLookup_set_ne (smDel (smSet s.sysModules (nm ++ "_temp") t) nm) nm
                (nm ++ "_temp") t hnmt,
              smLookup_del_ne (smSet s.sysModules (nm ++ "_temp") t) nm
                (nm ++ "_temp") hnmt,
              smLookup_set_self]
          rfl
        have e1 : smLookup
            (smDel (smSet (smDel (smSet s.sysModules (nm ++ "_temp") t) nm) nm t)
              (nm ++ "_temp")) nm = some t := by
          rw [smLookup_del_ne (smSet (smDel (smSet s.sysModules (nm ++ "_temp") t) nm) nm t)
                (nm ++ "_temp") nm htemp,
              smLookup_set_self]
        have e2 : smMem
            (smDel (smSet (smDel (smSet s.sysModules (nm ++ "_temp") t) nm) nm t)
              (nm ++ "_temp")) (nm ++ "_temp") = false := by
          rw [smMem, smLookup_del_self]
          rfl
        cases hspec : env.specOk with
        | false =>
          simp [loadExtension, hcache, hfile, hnm, hspec, h1, h2, e1, e2]
        | true =>
          cases hexec : env.execError with
          | some msg =>
            simp [loadExtension, hcache, hfile, hnm, hspec, hexec, h1, h2, e1, e2]
          | none =>
            simp [loadExtension, hcache, hfile, hnm, hspec, hexec, h1, h2, e1, e2]

/-! ## Claim C2 — idempotent load -/

/-- `n` sequential calls to `_load_extension()`: the list of results and the
final state. -/
def loadSeq (env : Env) (nm : String) : Nat → PyState → List (Except PyErr Nat) × PyState
  | 0, s => ([], s)
  | n + 1, s =>
    let first := loadExtension env nm s
    let rest := loadSeq env nm n first.2
    (first.1 :: rest.1, rest.2)

/-- Once the handle is cached, any number of further calls return it with no
state change at all. -/
theorem loadSeq_cached (env : Env) (nm : String) (k : Nat) (s : PyState) (m : Nat)
    (h : s.extensionModule = some m) :
    loadSeq env nm k s = (List.replicate k (Except.ok m), s) := by
  induction k with
  | zero => simp [loadSeq]
  | succ k ih => simp [loadSeq, loadExtension_cached env nm s m h, ih, List.replicate_succ]

/-- Claim C2: starting from an uncached state, if the first call succeeds
with handle `m`, then `N >= 1` sequential calls all return exactly `m` and
exactly one native-load event happens in total. -/
theorem c2_idempotent_load (env : Env) (nm : String) (s : PyState) (n m : Nat)
    (s1 : PyState) (hn : 1 ≤ n) (h0 : s.extensionModule = none)
    (h : loadExtension env nm s = (Except.ok m, s1)) :
    (loadSeq env nm n s).1 = List.replicate n (Except.ok m) ∧
    (loadSeq env nm n s).2.loadEvents = s.loadEvents + 1 := by
  obtain ⟨hm, hcached, hevents⟩ := loadExtension_ok_cache env nm s m s1 h0 h
  cases n with
  | zero => omega
  | succ k =>
    have hrest := loadSeq_cached env nm k s1 m hcached
    constructor
    · simp [loadSeq, h, hrest, List.replicate_succ]
    · simp [loadSeq, h, hrest, hevents]

/-! ## Claim C4 — missing file -/

/-- Claim C4: with no cached handle and the resolved file absent, the call
fails with an ImportError whose message contains the exact resolved path,
the state (in particular `_extension_module`) is untouched, and a later call
with the file restored performs a fresh load and succeeds. -/
theorem c4_missing_file (env env2 : Env) (nm : String) (s : PyState)
    (h0 : s.extensionModule = none)
    (hfile : env.fileExists (extensionPath env) = false) :
    loadExtension env nm s =
      (Except.error (PyErr.importError
        ("Failed to import virapy extension: " ++
          ("Extension file not found: " ++ extensionPath env))), s) ∧
    (env2.fileExists (extensionPath env2) = true → env2.specOk = true →
      env2.execError = none → (smLookup s.sysModules nm).isSome = true →
      ∃ s2, loadExtension env2 nm s = (Except.ok s.nextId, s2) ∧
        s2.extensionModule = some s.nextId) := by
  constructor
  · simp [loadExtension, h0, hfile, wrapErr, strPyErr]
  · intro hfile2 hspec2 hexec2 hsome
    cases hnm : smLookup s.sysModules nm with
    | none => rw [hnm] at hsome; simp at hsome
    | some t =>
      refine ⟨_, loadExtension_success env2 nm s t h0 hfile2 hnm hspec2 hexec2, ?_⟩
      simp

/-! ## Claim C9 — uniform error wrapping -/

/-- Claim C9: every failure of `_load_extension()` is a single ImportError
whose message is the fixed wrapper prefix followed by the string form of the
original error; in particular the missing-file ImportError is wrapped a
second time, so error kinds are distinguishable only by message content. -/
theorem c9_error_wrapping (env : Env) (nm : String) (s : PyState) (e : PyErr)
    (h : (loadExtension env nm s).1 = Except.error e) :
    (∃ msg, e = PyErr.importError ("Failed to import virapy extension: " ++ msg)) ∧
    (s.extensionModule = none → env.fileExists (extensionPath env) = false →
      e = PyErr.importError ("Failed to import virapy extension: " ++
        ("Extension file not found: " ++ extensionPath env))) := by
  cases hcache : s.extensionModule with
  | some m => simp [loadExtension, hcache] at h
  | none =>
    cases hfile : env.fileExists (extensionPath env) with
    | false =>
      simp [loadExtension, hcache, hfile, wrapErr, strPyErr] at h
      subst h
      exact ⟨⟨_, rfl⟩, fun _ _ => rfl⟩
    | true =>
      refine ⟨?_, fun _ hf => Bool.noConfusion hf⟩
      cases hnm : smLookup s.sysModules nm with
      | none =>
        simp [loadExtension, hcache, hfile, hnm, wrapErr] at h
        exact ⟨_, h.symm⟩
      | some t =>
        cases hspec : env.specOk with
        | false =>
          simp [loadExtension, hcache, hfile, hnm, hspec, wrapErr] at h
          exact ⟨_, h.symm⟩
        | true =>
          cases hexec : env.execError with
          | some msg =>
            simp [loadExtension, hcache, hfile, hnm, hspec, hexec, wrapErr] at h
            exact ⟨_, h.symm⟩
          | none =>
            simp [loadExtension, hcache, hfile, hnm, hspec, hexec] at h

/-! ## Concrete fixtures for witnesses -/

/-- A concrete host environment in which the load succeeds. -/
def wEnvOk : Env :=
  { osWindows := false, hasAddDllDirectory := false, packageDir := "/pkg",
    pathSep := ":", fileExists := fun _ => true, specOk := true,
    execError := none, hasAttr := fun _ => true, subAttrs := fun _ _ => some 0 }

/-- The same host with the extension file missing. -/
def wEnvMissing : Env :=
  { wEnvOk with fileExists := fun _ => false }

/-- A concrete interpreter state with the wrapper registered in
`sys.modules` and nothing loaded yet. -/
def wPyState : PyState :=
  { sysModules := [("virapy", 7)], extensionModule := none, nextId := 10,
    loadEvents := 0, dllDirectories := [], envPATH := none }

/-- A concrete whole-system state: fresh process, no variant Active. -/
def wSysState : SysState :=
  { py := wPyState, arb := none, activateCalls := 0 }

/-- A concrete Dormant proxy. -/
def wProxy : LazySubmodule := LazySubmodule.init "V1FF"

theorem c1_identity_restoration_witness :
    smLookup ((loadExtension wEnvOk "virapy" wPyState).2).sysModules "virapy" =
      smLookup wPyState.sysModules "virapy" ∧
    smMem ((loadExtension wEnvOk "virapy" wPyState).2).sysModules
      ("virapy" ++ "_temp") = false := by
  have h := c1_identity_restoration wEnvOk "virapy" wPyState
  exact ⟨h.1, h.2.2 (by rfl) (by rfl) (by decide)⟩

theorem c2_idempotent_load_witness :
    (loadSeq wEnvOk "virapy" 3 wPyState).1 =
      List.replicate 3 (Except.ok 10) ∧
    (loadSeq wEnvOk "virapy" 3 wPyState).2.loadEvents = wPyState.loadEvents + 1 :=
  c2_idempotent_load wEnvOk "virapy" wPyState 3 10
    (loadExtension wEnvOk "virapy" wPyState).2 (by decide) (by rfl) (by rfl)

theorem c4_missing_file_witness :
    loadExtension wEnvMissing "virapy" wPyState =
      (Except.error (PyErr.importError
        ("Failed to import virapy extension: " ++
          ("Extension file not found: " ++ extensionPath wEnvMissing))), wPyState) ∧
    (∃ s2, loadExtension wEnvOk "virapy" wPyState = (Except.ok wPyState.nextId, s2) ∧
      s2.extensionModule = some wPyState.nextId) := by
  have h := c4_missing_file wEnvMissing wEnvOk "virapy" wPyState (by rfl) (by rfl)
  exact ⟨h.1, h.2 (by rfl) (by rfl) (by rfl) (by decide)⟩

theorem c9_error_wrapping_witness :
    (∃ msg, Except.error (PyErr.importError
        ("Failed to import virapy extension: " ++
          ("Extension file not found: " ++ extensionPath wEnvMissing))) =
      (Except.error (PyErr.importError
        ("Failed to import virapy extension: " ++ msg)) : Except PyErr Nat)) ∧
    (loadExtension wEnvMissing "virapy" wPyState).1 =
      Except.error (PyErr.importError
        ("Failed to import virapy extension: " ++
          ("Extension file not found: " ++ extensionPath wEnvMissing))) := by
  have hload : (loadExtension wEnvMissing "virapy" wPyState).1 =
      Except.error (PyErr.importError
        ("Failed to import virapy extension: " ++
          ("Extension file not found: " ++ extensionPath wEnvMissing))) := by rfl
  have h := c9_error_wrapping wEnvMissing "virapy" wPyState _ hload
  obtain ⟨⟨msg, hmsg⟩, _⟩ := h
  exact ⟨⟨msg, by rw [hmsg]⟩, hload⟩

/-! ## Claim C5 — activation conflict keeps the proxy Dormant -/

/-- Claim C5: when the native `_activate()` raises an activation conflict,
the error propagates to the caller of the proxy use, the proxy's
`_activated` flag stays `false`, the previously Active variant is untouched,
and a future use of the same proxy runs the full activation sequence again
(load consulted again, arbiter invoked again) and can succeed. -/
theorem c5_conflict_keeps_dormant (env : Env) (nm attr : String) (p : LazySubmodule)
    (s : SysState) (ext : Nat) (py1 : PyState) (cur : String)
    (hact : p.activated = false)
    (hload : loadExtension env nm s.py = (Except.ok ext, py1))
    (hattr : env.hasAttr p.name = true)
    (harb : s.arb = some cur) (hcur : cur ≠ p.name) :
    ensureActivated env nm p s =
      (Except.error (PyErr.activationConflict p.name cur),
       { p with submodule := some (ext, p.name) },
       { s with py := py1, activateCalls := s.activateCalls + 1 }) ∧
    proxyGetattr env nm attr p s =
      (Except.error (PyErr.activationConflict p.name cur),
       { p with submodule := some (ext, p.name) },
       { s with py := py1, activateCalls := s.activateCalls + 1 }) ∧
    ({ p with submodule := some (ext, p.name) } : LazySubmodule).activated = false ∧
    (∀ s2 : SysState, s2.arb = none → ∀ ext2 py2,
      loadExtension env nm s2.py = (Except.ok ext2, py2) →
      ensureActivated env nm { p with submodule := some (ext, p.name) } s2 =
        (Except.ok (),
         { p with submodule := some (ext2, p.name), activated := true },
         { s2 with py := py2, arb := some p.name,
                   activateCalls := s2.activateCalls + 1 })) := by
  have hcur2 : ¬ (cur = p.name) := hcur
  have h1 : ensureActivated env nm p s =
      (Except.error (PyErr.activationConflict p.name cur),
       { p with submodule := some (ext, p.name) },
       { s with py := py1, activateCalls := s.activateCalls + 1 }) := by
    simp [ensureActivated, hact, hload, hattr, arbActivate, harb, hcur2]
  refine ⟨h1, ?_, by simp [hact], ?_⟩
  · simp [proxyGetattr, h1]
  · intro s2 harb2 ext2 py2 hload2
    simp [ensureActivated, hact, hload2, hattr, arbActivate, harb2]

/-! ## Claim C6 — Active is terminal and forwards directly -/

/-- Claim C6: once `_activated` is `true`, an attribute access forwards
directly to the stored submodule object: the proxy is returned unchanged
(never back to Dormant) and the system state is untouched, so `_activate()`
is not invoked again. -/
theorem c6_active_forwards (env : Env) (nm attr : String) (p : LazySubmodule)
    (s : SysState) (hact : p.activated = true) :
    proxyGetattr env nm attr p s = (subGetattr env p.submodule attr, p, s) ∧
    (proxyGetattr env nm attr p s).2.2.activateCalls = s.activateCalls ∧
    (proxyGetattr env nm attr p s).2.1.activated = true := by
  have h : proxyGetattr env nm attr p s = (subGetattr env p.submodule attr, p, s) := by
    simp [proxyGetattr, ensureActivated, hact]
  exact ⟨h, by rw [h], by rw [h]; exact hact⟩

theorem c6_active_forwards_witness :
    proxyGetattr wEnvOk "virapy" "doWork"
        { wProxy with activated := true } wSysState =
      (subGetattr wEnvOk ({ wProxy with activated := true } : LazySubmodule).submodule
        "doWork",
       { wProxy with activated := true }, wSysState) :=
  (c6_active_forwards wEnvOk "virapy" "doWork"
    { wProxy with activated := true } wSysState (by rfl)).1

/-! ## Claim C7 — lazy construction -/

/-- Claim C7: constructing a `_LazySubmodule` only records the variant name
and initializes `_submodule` to `None` and `_activated` to `False`; module
initialization builds the three proxies this way and performs no load and no
activation (`_extension_module`, the load-event counter and the activation
counter are untouched). -/
theorem c7_lazy_construction (env : Env) (s : SysState) (n : String) :
    (LazySubmodule.init n).name = n ∧
    (LazySubmodule.init n).submodule = none ∧
    (LazySubmodule.init n).activated = false ∧
    (moduleInit env s).1.1 = LazySubmodule.init "V1FF" ∧
    (moduleInit env s).1.2.1 = LazySubmodule.init "V8FF" ∧
    (moduleInit env s).1.2.2 = LazySubmodule.init "RGBFF" ∧
    (moduleInit env s).2.py.extensionModule = s.py.extensionModule ∧
    (moduleInit env s).2.py.loadEvents = s.py.loadEvents ∧
    (moduleInit env s).2.activateCalls = s.activateCalls := by
  refine ⟨rfl, rfl, rfl, rfl, rfl, rfl, ?_, ?_, rfl⟩ <;>
    simp [moduleInit, registerDllDirectory] <;>
    cases env.osWindows <;>
    cases env.hasAddDllDirectory <;>
    simp

/-! ## Claim C8 — platform resolution and DLL registration -/

/-- Claim C8: the extension file name is a pure function of the OS
(`virapy.pyd` on Windows, `virapy.so` otherwise) joined to the package
directory; on Windows, module initialization registers the package directory
on the DLL search path, via `os.add_dll_directory` when available and by
prepending to `PATH` otherwise, and no load happens during initialization. -/
theorem c8_platform_resolution (env : Env) (s : SysState) :
    extensionFileName true = "virapy.pyd" ∧
    extensionFileName false = "virapy.so" ∧
    extensionPath env = pathJoin env.packageDir (extensionFileName env.osWindows) ∧
    (env.osWindows = true → env.hasAddDllDirectory = true →
      (moduleInit env s).2.py.dllDirectories = env.packageDir :: s.py.dllDirectories) ∧
    (env.osWindows = true → env.hasAddDllDirectory = false →
      (moduleInit env s).2.py.envPATH =
        some (env.packageDir ++ env.pathSep ++ s.py.envPATH.getD "")) ∧
    (env.osWindows = false → (moduleInit env s).2.py = s.py) ∧
    (moduleInit env s).2.py.loadEvents = s.py.loadEvents := by
  refine ⟨rfl, rfl, extensionPath_eq env, ?_, ?_, ?_, ?_⟩
  · intro hw hd; simp [moduleInit, registerDllDirectory, hw, hd]
  · intro hw hd; simp [moduleInit, registerDllDirectory, hw, hd]
  · intro hw; simp [moduleInit, registerDllDirectory, hw]
  · simp [moduleInit, registerDllDirectory]
    cases env.osWindows <;> cases env.hasAddDllDirectory <;> simp

/-- A concrete Windows host with `os.add_dll_directory` available. -/
def wEnvWin : Env :=
  { wEnvOk with osWindows := true, hasAddDllDirectory := true, pathSep := ";" }

theorem c8_platform_resolution_witness :
    (moduleInit wEnvWin wSysState).2.py.dllDirectories =
      wEnvWin.packageDir :: wSysState.py.dllDirectories ∧
    extensionPath wEnvWin =
      pathJoin wEnvWin.packageDir (extensionFileName wEnvWin.osWindows) :=
  ⟨(c8_platform_resolution wEnvWin wSysState).2.2.2.1 (by rfl) (by rfl),
   (c8_platform_resolution wEnvWin wSysState).2.2.1⟩

/-! ## Claim C10 — missing attribute and the stale `_submodule` field -/

/-- Claim C10: if the loaded extension has no attribute named after the
proxy, first use raises an AttributeError (a different kind from the three
spec errors) before `_activate()` is ever invoked, and the `_activated`
flag stays `false`; and after a failed `_activate()` the `_submodule` field
keeps the resolved submodule object although the proxy is not Active. -/
theorem c10_attribute_gap (env : Env) (nm : String) (p : LazySubmodule)
    (s : SysState) :
    (∀ ext py1, p.activated = false →
      loadExtension env nm s.py = (Except.ok ext, py1) →
      env.hasAttr p.name = false →
      ensureActivated env nm p s =
        (Except.error (PyErr.attributeError p.name), p, { s with py := py1 }) ∧
      ({ s with py := py1} : SysState).activateCalls = s.activateCalls) ∧
    (∀ ext py1 cur, p.activated = false →
      loadExtension env nm s.py = (Except.ok ext, py1) →
      env.hasAttr p.name = true → s.arb = some cur → cur ≠ p.name →
      (ensureActivated env nm p s).2.1.submodule = some (ext, p.name) ∧
      (ensureActivated env nm p s).2.1.activated = false) := by
  constructor
  · intro ext py1 hact hload hattr
    constructor
    · simp [ensureActivated, hact, hload, hattr]
    · rfl
  · intro ext py1 cur hact hload hattr harb hcur
    have hcur2 : ¬ (cur = p.name) := hcur
    exact ⟨by simp [ensureActivated, hact, hload, hattr, arbActivate, harb, hcur2],
           by simp [ensureActivated, hact, hload, hattr, arbActivate, harb, hcur2]⟩

/-- A concrete system state in which V8FF already holds Active. -/
def wSysConflict : SysState :=
  { py := wPyState, arb := some "V8FF", activateCalls := 0 }

/-- A concrete host whose loaded extension exposes no attributes. -/
def wEnvNoAttr : Env :=
  { wEnvOk with hasAttr := fun _ => false }

theorem c5_conflict_keeps_dormant_witness :
    ensureActivated wEnvOk "virapy" wProxy wSysConflict =
      (Except.error (PyErr.activationConflict "V1FF" "V8FF"),
       { wProxy with submodule := some (10, "V1FF") },
       { wSysConflict with py := (loadExtension wEnvOk "virapy" wPyState).2,
                           activateCalls := 1 }) :=
  (c5_conflict_keeps_dormant wEnvOk "virapy" "doWork" wProxy wSysConflict 10
    (loadExtension wEnvOk "virapy" wPyState).2 "V8FF" (by rfl) (by rfl) (by rfl)
    (by rfl) (by decide)).1

theorem c10_attribute_gap_witness :
    ensureActivated wEnvNoAttr "virapy" wProxy wSysState =
      (Except.error (PyErr.attributeError "V1FF"), wProxy,
       { wSysState with py := (loadExtension wEnvNoAttr "virapy" wPyState).2 }) ∧
    (ensureActivated wEnvOk "virapy" wProxy wSysConflict).2.1.submodule =
      some (10, "V1FF") :=
  ⟨((c10_attribute_gap wEnvNoAttr "virapy" wProxy wSysState).1 10
      (loadExtension wEnvNoAttr "virapy" wPyState).2 (by rfl) (by rfl) (by rfl)).1,
   ((c10_attribute_gap wEnvOk "virapy" wProxy wSysConflict).2 10
      (loadExtension wEnvOk "virapy" wPyState).2 "V8FF" (by rfl) (by rfl) (by rfl)
      (by rfl) (by decide)).1⟩

/-! ## Claim C3 — concurrency model for activation

Interleaving semantics for `_ensure_activated` run by several threads.
Atomicity granularity: one Python statement or native call per step (the
interpreter lock serializes bytecode), so the unsynchronized
check-then-act on `_extension_module` is two separate steps (`loadCheck`,
`loadDo`) and the check of `_activated` is separate from the later store.
The native `_activate()` call is a single atomic step deciding as
`arbActivate` does.  Module object identities are abstracted to a
`cacheLoaded` flag (the claim is about activation, not handle identity),
and the host environment is the success scenario of the spec: file
present, spec and execution succeed, attributes present. -/

/-- Program counter of one thread inside `_ensure_activated`. -/
inductive TPC where
  /-- about to read `self._activated` -/
  | checkFlag
  /-- inside `_load_extension`: about to read the `_extension_module` cache -/
  | loadCheck
  /-- inside `_load_extension`: about to perform the real load -/
  | loadDo
  /-- about to run `self._submodule = getattr(extension, self.name)` -/
  | getAttr
  /-- about to run `self._submodule._activate()` -/
  | callActivate
  /-- about to run `self._activated = True` -/
  | setFlag
  /-- returned normally -/
  | done
  /-- raised `ActivationConflict`; the payload is the variant that was
  Active when the arbiter rejected -/
  | errConflict (currentlyActive : String)
deriving Repr, DecidableEq

/-- One thread: the proxy (variant name) it is using and its position. -/
structure ThreadSt where
  proxy : String
  pc : TPC
deriving Repr, DecidableEq

/-- Process-wide state shared by the threads. -/
structure CGlobals where
  /-- each proxy's `_activated` flag -/
  activated : String → Bool
  /-- each proxy's `_submodule` field is set -/
  submoduleSet : String → Bool
  /-- the `_extension_module` cache is populated -/
  cacheLoaded : Bool
  /-- the Activation Arbiter's current Active variant (native side,
  modelled from the spec, deciding exactly as `arbActivate`) -/
  arb : Option String

/-- The single atomic step of one thread; `none` when the thread has
terminated (normally or with an exception). -/
def threadStep (g : CGlobals) (t : ThreadSt) : Option (ThreadSt × CGlobals) :=
  match t.pc with
  | TPC.checkFlag =>
    some (if g.activated t.proxy then ({ t with pc := TPC.done }, g)
          else ({ t with pc := TPC.loadCheck }, g))
  | TPC.loadCheck =>
    some (if g.cacheLoaded then ({ t with pc := TPC.getAttr }, g)
          else ({ t with pc := TPC.loadDo }, g))
  | TPC.loadDo =>
    some ({ t with pc := TPC.getAttr }, { g with cacheLoaded := true })
  | TPC.getAttr =>
    some ({ t with pc := TPC.callActivate },
          { g with submoduleSet := Function.update g.submoduleSet t.proxy true })
  | TPC.callActivate =>
    match g.arb with
    | none => some ({ t with pc := TPC.setFlag }, { g with arb := some t.proxy })
    | some j =>
      if j = t.proxy then some ({ t with pc := TPC.setFlag }, g)
      else some ({ t with pc := TPC.errConflict j }, g)
  | TPC.setFlag =>
    some ({ t with pc := TPC.done },
          { g with activated := Function.update g.activated t.proxy true })
  | TPC.done => none
  | TPC.errConflict _ => none

/-- Whole system: shared globals plus the per-thread states. -/
structure ConcState where
  globals : CGlobals
  threads : List ThreadSt

/-- One interleaving step: some thread advances. -/
inductive ConcStep : ConcState → ConcState → Prop where
  | thread (s : ConcState) (n : Nat) (t t1 : ThreadSt) (g1 : CGlobals)
      (hthread : s.threads[n]? = some t)
      (hstep : threadStep s.globals t = some (t1, g1)) :
      ConcStep s ⟨g1, s.threads.set n t1⟩

/-- All interleavings: reflexive-transitive closure of `ConcStep`. -/
def ConcReachable (ini s : ConcState) : Prop :=
  Relation.ReflTransGen ConcStep ini s

/-- Fresh process about to serve first uses: given the variant each thread
uses, every flag is `false`, nothing loaded, no variant Active. -/
def initConc (ps : List String) : ConcState :=
  ⟨⟨fun _ => false, fun _ => false, false, none⟩,
   ps.map fun p => ⟨p, TPC.checkFlag⟩⟩

/-- No thread can advance any further. -/
def Terminal (s : ConcState) : Prop :=
  ∀ t ∈ s.threads, threadStep s.globals t = none

/-- A step never changes which proxy a thread works on. -/
theorem threadStep_proxy (g : CGlobals) (t t1 : ThreadSt) (g1 : CGlobals)
    (h : threadStep g t = some (t1, g1)) : t1.proxy = t.proxy := by
  cases hpc : t.pc <;> simp [threadStep, hpc] at h
  case checkFlag =>
    cases hb : g.activated t.proxy <;> simp [hb] at h <;> simp [← h.1]
  case loadCheck =>
    cases hb : g.cacheLoaded <;> simp [hb] at h <;> simp [← h.1]
  case loadDo => simp [← h.1]
  case getAttr => simp [← h.1]
  case callActivate =>
    cases harb : g.arb with
    | none => simp [harb] at h; simp [← h.1]
    | some j =>
      by_cases hj : j = t.proxy <;> simp [harb, hj] at h <;> simp [← h.1]
  case setFlag => simp [← h.1]

/-- A terminated thread is at `done` or at `errConflict`. -/
theorem threadStep_none (g : CGlobals) (t : ThreadSt)
    (h : threadStep g t = none) :
    t.pc = TPC.done ∨ ∃ j, t.pc = TPC.errConflict j := by
  cases hpc : t.pc <;> simp [threadStep, hpc] at h
  case done => exact Or.inl rfl
  case errConflict j => exact Or.inr ⟨j, rfl⟩
  case callActivate =>
    cases harb : g.arb with
    | none => simp [harb] at h
    | some j => by_cases hj : j = t.proxy <;> simp [harb, hj] at h

/-- `l.set n a = l` when position `n` already holds `a`. -/
theorem list_set_self {α : Type} (l : List α) (n : Nat) (a : α)
    (h : l[n]? = some a) : l.set n a = l := by
  induction l generalizing n with
  | nil => simp at h
  | cons x xs ih =>
    cases n with
    | zero => simp_all
    | succ k =>
      simp only [List.getElem?_cons_succ] at h
      simp [List.set, ih k h]

/-- Inductive invariant of the activation protocol: the thread/proxy
assignment is fixed; a proxy flagged `_activated` is recorded Active by the
arbiter; a thread about to set its flag has already been accepted by the
arbiter; a thread that raised a conflict saw some other variant Active; a
finished thread's proxy is flagged; and the arbiter only ever records a
participating variant. -/
def ConcInv (ps : List String) (s : ConcState) : Prop :=
  s.threads.map (fun u => u.proxy) = ps ∧
  (∀ v, s.globals.activated v = true → s.globals.arb = some v) ∧
  (∀ u ∈ s.threads, u.pc = TPC.setFlag → s.globals.arb = some u.proxy) ∧
  (∀ u ∈ s.threads, ∀ j, u.pc = TPC.errConflict j →
    s.globals.arb = some j ∧ j ≠ u.proxy) ∧
  (∀ u ∈ s.threads, u.pc = TPC.done → s.globals.activated u.proxy = true) ∧
  (∀ v, s.globals.arb = some v → v ∈ ps)

theorem initConc_proxies (ps : List String) :
    (initConc ps).threads.map (fun u => u.proxy) = ps := by
  induction ps with
  | nil => rfl
  | cons p rest ih =>
    simp only [initConc, List.map_cons] at ih ⊢
    rw [ih]

theorem concInv_init (ps : List String) : ConcInv ps (initConc ps) := by
  refine ⟨initConc_proxies ps, ?_, ?_, ?_, ?_, ?_⟩
  · intro v hv; exact Bool.noConfusion hv
  · intro u hu hpc
    simp [initConc] at hu
    obtain ⟨p, hp, rfl⟩ := hu
    exact TPC.noConfusion hpc
  · intro u hu j hpc
    simp [initConc] at hu
    obtain ⟨p, hp, rfl⟩ := hu
    exact TPC.noConfusion hpc
  · intro u hu hpc
    simp [initConc] at hu
    obtain ⟨p, hp, rfl⟩ := hu
    exact TPC.noConfusion hpc
  · intro v hv; exact Option.noConfusion hv

/-- Steps that leave `arb` and `activated` untouched preserve the invariant
provided the moved thread's new position supports the relevant conjuncts. -/
theorem concInv_update (ps : List String) (s : ConcState) (n : Nat)
    (t t1 : ThreadSt) (g1 : CGlobals)
    (hthread : s.threads[n]? = some t)
    (hproxy1 : t1.proxy = t.proxy)
    (hinv : ConcInv ps s)
    (harb : g1.arb = s.globals.arb)
    (hactiv : g1.activated = s.globals.activated)
    (hsetFlag : t1.pc = TPC.setFlag → g1.arb = some t1.proxy)
    (herrC : ∀ j, t1.pc = TPC.errConflict j → g1.arb = some j ∧ j ≠ t1.proxy)
    (hdone1 : t1.pc = TPC.done → g1.activated t1.proxy = true) :
    ConcInv ps ⟨g1, s.threads.set n t1⟩ := by
  obtain ⟨hproxies, hact, hset, herr, hdone, harbps⟩ := hinv
  have hmapn : (s.threads.map (fun u => u.proxy))[n]? = some t.proxy := by
    rw [List.getElem?_map, hthread]; rfl
  refine ⟨?_, ?_, ?_, ?_, ?_, ?_⟩
  · show (s.threads.set n t1).map (fun u => u.proxy) = ps
    rw [List.map_set, hproxy1, list_set_self _ _ _ hmapn]
    exact hproxies
  · intro v hv
    rw [hactiv] at hv
    rw [harb]
    exact hact v hv
  · intro u hu hpc
    rcases List.mem_or_eq_of_mem_set hu with hu | rfl
    · rw [harb]; exact hset u hu hpc
    · exact hsetFlag hpc
  · intro u hu j hpc
    rcases List.mem_or_eq_of_mem_set hu with hu | rfl
    · rw [harb]; exact herr u hu j hpc
    · exact herrC j hpc
  · intro u hu hpc
    rcases List.mem_or_eq_of_mem_set hu with hu | rfl
    · rw [hactiv]; exact hdone u hu hpc
    · exact hdone1 hpc
  · intro v hv
    rw [harb] at hv
    exact harbps v hv

/-- The invariant is preserved by every interleaving step. -/
theorem concInv_step (ps : List String) (s s1 : ConcState)
    (hstep : ConcStep s s1) (hinv : ConcInv ps s) : ConcInv ps s1 := by
  rcases hstep with ⟨n, t, t1, g1, hthread, htstep⟩
  have hproxy1 : t1.proxy = t.proxy := threadStep_proxy _ _ _ _ htstep
  have htmem : t ∈ s.threads := List.getElem?_mem hthread
  cases hpc : t.pc with
  | checkFlag =>
    simp only [threadStep, hpc] at htstep
    cases hb : s.globals.activated t.proxy with
    | true =>
      rw [hb] at htstep
      simp only [eq_self_iff_true, if_true, Option.some.injEq, Prod.mk.injEq] at htstep
      obtain ⟨h1, h2⟩ := htstep
      subst h1; subst h2
      exact concInv_update ps s n t _ _ hthread rfl hinv rfl rfl
        (by intro h; exact TPC.noConfusion h)
        (by intro j h; exact TPC.noConfusion h)
        (fun _ => hb)
    | false =>
      rw [hb, if_neg (by decide : ¬(false = true))] at htstep
      simp only [Option.some.injEq, Prod.mk.injEq] at htstep
      obtain ⟨h1, h2⟩ := htstep
      subst h1; subst h2
      exact concInv_update ps s n t _ _ hthread rfl hinv rfl rfl
        (by intro h; exact TPC.noConfusion h)
        (by intro j h; exact TPC.noConfusion h)
        (by intro h; exact TPC.noConfusion h)
  | loadCheck =>
    simp only [threadStep, hpc] at htstep
    cases hb : s.globals.cacheLoaded with
    | true =>
      rw [hb] at htstep
      simp only [eq_self_iff_true, if_true, Option.some.injEq, Prod.mk.injEq] at htstep
      obtain ⟨h1, h2⟩ := htstep
      subst h1; subst h2
      exact concInv_update ps s n t _ _ hthread rfl hinv rfl rfl
        (by intro h; exact TPC.noConfusion h)
        (by intro j h; exact TPC.noConfusion h)
        (by intro h; exact TPC.noConfusion h)
    | false =>
      rw [hb, if_neg (by decide : ¬(false = true))] at htstep
      simp only [Option.some.injEq, Prod.mk.injEq] at htstep
      obtain ⟨h1, h2⟩ := htstep
      subst h1; subst h2
      exact concInv_update ps s n t _ _ hthread rfl hinv rfl rfl
        (by intro h; exact TPC.noConfusion h)
        (by intro j h; exact TPC.noConfusion h)
        (by intro h; exact TPC.noConfusion h)
  | loadDo =>
    simp only [threadStep, hpc, Option.some.injEq, Prod.mk.injEq] at htstep
    obtain ⟨h1, h2⟩ := htstep
    subst h1; subst h2
    exact concInv_update ps s n t _ _ hthread rfl hinv rfl rfl
      (by intro h; exact TPC.noConfusion h)
      (by intro j h; exact TPC.noConfusion h)
      (by intro h; exact TPC.noConfusion h)
  | getAttr =>
    simp only [threadStep, hpc, Option.some.injEq, Prod.mk.injEq] at htstep
    obtain ⟨h1, h2⟩ := htstep
    subst h1; subst h2
    exact concInv_update ps s n t _ _ hthread rfl hinv rfl rfl
      (by intro h; exact TPC.noConfusion h)
      (by intro j h; exact TPC.noConfusion h)
      (by intro h; exact TPC.noConfusion h)
  | callActivate =>
    simp only [threadStep, hpc] at htstep
    cases harb0 : s.globals.arb with
    | none =>
      rw [harb0] at htstep
      simp only [Option.some.injEq, Prod.mk.injEq] at htstep
      obtain ⟨h1, h2⟩ := htstep
      subst h1; subst h2
      obtain ⟨hproxies, hact, hset, herr, hdone, harbps⟩ := hinv
      have hmapn : (s.threads.map (fun u => u.proxy))[n]? = some t.proxy := by
        rw [List.getElem?_map, hthread]; rfl
      refine ⟨?_, ?_, ?_, ?_, ?_, ?_⟩
      · show (s.threads.set n _).map (fun u => u.proxy) = ps
        rw [List.map_set]
        show (s.threads.map (fun u => u.proxy)).set n t.proxy = ps
        rw [list_set_self _ _ _ hmapn]
        exact hproxies
      · intro v hv
        have hvv := hact v hv
        rw [harb0] at hvv
        exact Option.noConfusion hvv
      · intro u hu hpc2
        rcases List.mem_or_eq_of_mem_set hu with hu | rfl
        · have hvv := hset u hu hpc2
          rw [harb0] at hvv
          exact Option.noConfusion hvv
        · rfl
      · intro u hu j hpc2
        rcases List.mem_or_eq_of_mem_set hu with hu | rfl
        · have hvv := (herr u hu j hpc2).1
          rw [harb0] at hvv
          exact Option.noConfusion hvv
        · exact TPC.noConfusion hpc2
      · intro u hu hpc2
        rcases List.mem_or_eq_of_mem_set hu with hu | rfl
        · exact hdone u hu hpc2
        · exact TPC.noConfusion hpc2
      · intro v hv
        have hv2 : (some t.proxy : Option String) = some v := hv
        cases Option.some.inj hv2
        rw [← hproxies]
        exact List.mem_map_of_mem _ htmem
    | some j =>
      simp only [harb0] at htstep
      by_cases hj : j = t.proxy
      · rw [if_pos hj] at htstep
        simp only [Option.some.injEq, Prod.mk.injEq] at htstep
        obtain ⟨h1, h2⟩ := htstep
        subst h1; subst h2
        exact concInv_update ps s n t _ _ hthread rfl hinv rfl rfl
          (by intro h; rw [harb0, hj])
          (by intro j0 h; exact TPC.noConfusion h)
          (by intro h; exact TPC.noConfusion h)
      · rw [if_neg hj] at htstep
        simp only [Option.some.injEq, Prod.mk.injEq] at htstep
        obtain ⟨h1, h2⟩ := htstep
        subst h1; subst h2
        exact concInv_update ps s n t _ _ hthread rfl hinv rfl rfl
          (by intro h; exact TPC.noConfusion h)
          (by intro j0 h
              have hjj : j = j0 := TPC.errConflict.inj h
              subst hjj
              exact ⟨harb0, hj⟩)
          (by intro h; exact TPC.noConfusion h)
  | setFlag =>
    simp only [threadStep, hpc, Option.some.injEq, Prod.mk.injEq] at htstep
    obtain ⟨h1, h2⟩ := htstep
    subst h1; subst h2
    obtain ⟨hproxies, hact, hset, herr, hdone, harbps⟩ := hinv
    have harbt : s.globals.arb = some t.proxy := hset t htmem hpc
    have hmapn : (s.threads.map (fun u => u.proxy))[n]? = some t.proxy := by
      rw [List.getElem?_map, hthread]; rfl
    refine ⟨?_, ?_, ?_, ?_, ?_, ?_⟩
    · show (s.threads.set n _).map (fun u => u.proxy) = ps
      rw [List.map_set]
      show (s.threads.map (fun u => u.proxy)).set n t.proxy = ps
      rw [list_set_self _ _ _ hmapn]
      exact hproxies
    · intro v hv
      have hv2 : Function.update s.globals.activated t.proxy true v = true := hv
      by_cases hveq : v = t.proxy
      · subst hveq
        exact harbt.symm ▸ rfl
      · rw [Function.update_noteq hveq] at hv2
        exact hact v hv2
    · intro u hu hpc2
      rcases List.mem_or_eq_of_mem_set hu with hu | rfl
      · exact hset u hu hpc2
      · exact TPC.noConfusion hpc2
    · intro u hu j hpc2
      rcases List.mem_or_eq_of_mem_set hu with hu | rfl
      · exact herr u hu j hpc2
      · exact TPC.noConfusion hpc2
    · intro u hu hpc2
      rcases List.mem_or_eq_of_mem_set hu with hu | rfl
      · show Function.update s.globals.activated t.proxy true u.proxy = true
        by_cases hveq : u.proxy = t.proxy
        · rw [hveq, Function.update_same]
        · rw [Function.update_noteq hveq]
          exact hdone u hu hpc2
      · show Function.update s.globals.activated t.proxy true t.proxy = true
        rw [Function.update_same]
    · intro v hv
      exact harbps v hv
  | done =>
    simp only [threadStep, hpc] at htstep
    exact Option.noConfusion htstep
  | errConflict j =>
    simp only [threadStep, hpc] at htstep
    exact Option.noConfusion htstep

/-- The invariant holds in every reachable state. -/
theorem concInv_reachable (ps : List String) (s : ConcState)
    (h : ConcReachable (initConc ps) s) : ConcInv ps s := by
  induction h with
  | refl => exact concInv_init ps
  | tail hsteps hstep ih => exact concInv_step ps _ _ hstep ih

/-- In the two-thread first-use race between V1FF and V8FF, every complete
interleaving ends with exactly one of the two Active and the other holding
an `ActivationConflict` naming the winner. -/
theorem conc_two_thread_outcome (s : ConcState)
    (hreach : ConcReachable (initConc ["V1FF", "V8FF"]) s)
    (hterm : Terminal s) :
    ∃ u0 u1, s.threads = [u0, u1] ∧
      ((u0.pc = TPC.done ∧ s.globals.activated "V1FF" = true ∧
        s.globals.activated "V8FF" = false ∧ u1.pc = TPC.errConflict "V1FF") ∨
       (u1.pc = TPC.done ∧ s.globals.activated "V8FF" = true ∧
        s.globals.activated "V1FF" = false ∧ u0.pc = TPC.errConflict "V8FF")) := by
  obtain ⟨hproxies, hact, hset, herr, hdone, harbps⟩ :=
    concInv_reachable ["V1FF", "V8FF"] s hreach
  cases hthreads : s.threads with
  | nil => rw [hthreads] at hproxies; simp at hproxies
  | cons u0 rest0 =>
    cases rest0 with
    | nil => rw [hthreads] at hproxies; simp at hproxies
    | cons u1 rest1 =>
      cases rest1 with
      | cons u2 rest2 => rw [hthreads] at hproxies; simp at hproxies
      | nil =>
        rw [hthreads] at hproxies
        simp only [List.map_cons, List.map_nil, List.cons.injEq, and_true] at hproxies
        obtain ⟨hp0, hp1⟩ := hproxies
        have hm0 : u0 ∈ s.threads := by rw [hthreads]; exact List.mem_cons_self _ _
        have hm1 : u1 ∈ s.threads := by
          rw [hthreads]; exact List.mem_cons_of_mem _ (List.mem_cons_self _ _)
        have ht0 := threadStep_none _ _ (hterm u0 hm0)
        have ht1 := threadStep_none _ _ (hterm u1 hm1)
        refine ⟨u0, u1, rfl, ?_⟩
        rcases ht0 with hd0 | ⟨j0, he0⟩
        · rcases ht1 with hd1 | ⟨j1, he1⟩
          · -- both finished normally: two variants Active, impossible
            have ha0 := hdone u0 hm0 hd0
            have ha1 := hdone u1 hm1 hd1
            have heq : u0.proxy = u1.proxy :=
              Option.some.inj ((hact _ ha0).symm.trans (hact _ ha1))
            rw [hp0, hp1] at heq
            exact absurd heq (by decide)
          · -- u0 finished, u1 conflicted
            left
            have ha0 := hdone u0 hm0 hd0
            have hb0 := hact _ ha0
            obtain ⟨hbj, hjne⟩ := herr u1 hm1 j1 he1
            have hj1 : j1 = u0.proxy := Option.some.inj (hbj.symm.trans hb0)
            have hna : s.globals.activated "V8FF" = false := by
              cases hcase : s.globals.activated "V8FF" with
              | false => rfl
              | true =>
                have heq : u0.proxy = "V8FF" :=
                  Option.some.inj (hb0.symm.trans (hact _ hcase))
                rw [hp0] at heq
                exact absurd heq (by decide)
            rw [hp0] at ha0 hj1
            exact ⟨hd0, ha0, hna, hj1 ▸ he1⟩
        · rcases ht1 with hd1 | ⟨j1, he1⟩
          · -- u1 finished, u0 conflicted
            right
            have ha1 := hdone u1 hm1 hd1
            have hb1 := hact _ ha1
            obtain ⟨hbj, hjne⟩ := herr u0 hm0 j0 he0
            have hj0 : j0 = u1.proxy := Option.some.inj (hbj.symm.trans hb1)
            have hna : s.globals.activated "V1FF" = false := by
              cases hcase : s.globals.activated "V1FF" with
              | false => rfl
              | true =>
                have heq : u1.proxy = "V1FF" :=
                  Option.some.inj (hb1.symm.trans (hact _ hcase))
                rw [hp1] at heq
                exact absurd heq (by decide)
            rw [hp1] at ha1 hj0
            exact ⟨hd1, ha1, hna, hj0 ▸ he0⟩
          · -- both conflicted: the arbiter would name a variant neither
            -- thread could have installed, impossible
            obtain ⟨hbj0, hne0⟩ := herr u0 hm0 j0 he0
            obtain ⟨hbj1, hne1⟩ := herr u1 hm1 j1 he1
            rw [hp0] at hne0
            rw [hp1] at hne1
            have hjmem0 := harbps j0 hbj0
            have hjmem1 := harbps j1 hbj1
            simp only [List.mem_cons, List.not_mem_nil, or_false] at hjmem0 hjmem1
            have hj0 : j0 = "V8FF" := by
              rcases hjmem0 with h | h
              · exact absurd h hne0
              · exact h
            have hj1 : j1 = "V1FF" := by
              rcases hjmem1 with h | h
              · exact h
              · exact absurd h hne1
            have heq : j0 = j1 := Option.some.inj (hbj0.symm.trans hbj1)
            rw [hj0, hj1] at heq
            exact absurd heq (by decide)

/-- Claim C3: over all interleavings of activation attempts by concurrent
threads on the proxies, at most one variant is Active at any point in
logical time; and in the two-thread concurrent first use of V1FF and V8FF,
every complete interleaving ends with exactly one of them Active and the
other observing an activation conflict naming the winner.  (The Activation
Arbiter is modelled from the spec, section 4.5; each Python statement or
native call is one atomic step.) -/
theorem c3_single_activation :
    (∀ (ps : List String) (s : ConcState), ConcReachable (initConc ps) s →
      ∀ v w, s.globals.activated v = true → s.globals.activated w = true → v = w) ∧
    (∀ s : ConcState, ConcReachable (initConc ["V1FF", "V8FF"]) s → Terminal s →
      ∃ u0 u1, s.threads = [u0, u1] ∧
        ((u0.pc = TPC.done ∧ s.globals.activated "V1FF" = true ∧
          s.globals.activated "V8FF" = false ∧ u1.pc = TPC.errConflict "V1FF") ∨
         (u1.pc = TPC.done ∧ s.globals.activated "V8FF" = true ∧
          s.globals.activated "V1FF" = false ∧ u0.pc = TPC.errConflict "V8FF"))) := by
  constructor
  · intro ps s hreach v w hv hw
    obtain ⟨_, hact, _⟩ := concInv_reachable ps s hreach
    exact Option.some.inj ((hact v hv).symm.trans (hact w hw))
  · exact conc_two_thread_outcome

/-- Final state of a full single-thread activation run of V1FF. -/
def c3RunEnd : ConcState :=
  ⟨⟨Function.update (fun _ => false) "V1FF" true,
    Function.update (fun _ => false) "V1FF" true, true, some "V1FF"⟩,
   [⟨"V1FF", TPC.done⟩]⟩

theorem c3RunReachable : ConcReachable (initConc ["V1FF"]) c3RunEnd := by
  have h1 : ConcStep (initConc ["V1FF"])
      ⟨⟨fun _ => false, fun _ => false, false, none⟩, [⟨"V1FF", TPC.loadCheck⟩]⟩ :=
    ConcStep.thread _ 0 ⟨"V1FF", TPC.checkFlag⟩ ⟨"V1FF", TPC.loadCheck⟩ _ rfl rfl
  have h2 : ConcStep
      ⟨⟨fun _ => false, fun _ => false, false, none⟩, [⟨"V1FF", TPC.loadCheck⟩]⟩
      ⟨⟨fun _ => false, fun _ => false, false, none⟩, [⟨"V1FF", TPC.loadDo⟩]⟩ :=
    ConcStep.thread _ 0 ⟨"V1FF", TPC.loadCheck⟩ ⟨"V1FF", TPC.loadDo⟩ _ rfl rfl
  have h3 : ConcStep
      ⟨⟨fun _ => false, fun _ => false, false, none⟩, [⟨"V1FF", TPC.loadDo⟩]⟩
      ⟨⟨fun _ => false, fun _ => false, true, none⟩, [⟨"V1FF", TPC.getAttr⟩]⟩ :=
    ConcStep.thread _ 0 ⟨"V1FF", TPC.loadDo⟩ ⟨"V1FF", TPC.getAttr⟩ _ rfl rfl
  have h4 : ConcStep
      ⟨⟨fun _ => false, fun _ => false, true, none⟩, [⟨"V1FF", TPC.getAttr⟩]⟩
      ⟨⟨fun _ => false, Function.update (fun _ => false) "V1FF" true, true, none⟩,
       [⟨"V1FF", TPC.callActivate⟩]⟩ :=
    ConcStep.thread _ 0 ⟨"V1FF", TPC.getAttr⟩ ⟨"V1FF", TPC.callActivate⟩ _ rfl rfl
  have h5 : ConcStep
      ⟨⟨fun _ => false, Function.update (fun _ => false) "V1FF" true, true, none⟩,
       [⟨"V1FF", TPC.callActivate⟩]⟩
      ⟨⟨fun _ => false, Function.update (fun _ => false) "V1FF" true, true,
        some "V1FF"⟩, [⟨"V1FF", TPC.setFlag⟩]⟩ :=
    ConcStep.thread _ 0 ⟨"V1FF", TPC.callActivate⟩ ⟨"V1FF", TPC.setFlag⟩ _ rfl rfl
  have h6 : ConcStep
      ⟨⟨fun _ => false, Function.update (fun _ => false) "V1FF" true, true,
        some "V1FF"⟩, [⟨"V1FF", TPC.setFlag⟩]⟩ c3RunEnd :=
    ConcStep.thread _ 0 ⟨"V1FF", TPC.setFlag⟩ ⟨"V1FF", TPC.done⟩ _ rfl rfl
  exact Relation.ReflTransGen.tail (Relation.ReflTransGen.tail
    (Relation.ReflTransGen.tail (Relation.ReflTransGen.tail
      (Relation.ReflTransGen.tail (Relation.ReflTransGen.tail
        Relation.ReflTransGen.refl h1) h2) h3) h4) h5) h6

theorem c3_single_activation_witness :
    ConcReachable (initConc ["V1FF"]) c3RunEnd ∧
    c3RunEnd.globals.activated "V1FF" = true ∧
    ("V1FF" : String) = "V1FF" := by
  have hact : c3RunEnd.globals.activated "V1FF" = true := by
    show Function.update (fun _ => false) "V1FF" true "V1FF" = true
    rw [Function.update_same]
  exact ⟨c3RunReachable, hact,
    c3_single_activation.1 ["V1FF"] c3RunEnd c3RunReachable "V1FF" "V1FF" hact hact⟩

end Virapy
